import Mathlib

/-!
Verification of the jira-to-planfix synchronization bridge.

This file gives a shallow embedding, in Lean 4, of the change-detection and
reconciliation core of the repository (src/utils/hash.py, src/storage/repository.py,
src/jira/methods.py, src/__main__.py) and settles the specification claims
against it.  Python strings are modelled as `List Char` (for the canonicalizer)
or Lean `String` (for opaque digest values), byte strings as `List Nat`,
machine integers as `Int`/`Nat`, `None` as `Option.none`, and the external
hash primitive (blake3) as an explicit function parameter, since its code is
not part of the repository.
-/

namespace JiraPlanfix

/-! ## Fingerprint engine — src/utils/hash.py -/

/-- Python truthiness of an optional string field (`None` and `""` are falsy),
as used by `redis_issue.get('h_attachment')` checks in `src/__main__.py`. -/
def truthy : Option String → Bool
  | none => false
  | some s => s ≠ ""

/-- The value Python's `h or b""` produces from `h : str | bytes | None`:
`None` and the empty string are falsy and map to `b""`; any other string is
kept (comparison of UTF-8 encodings coincides with string equality). -/
def orEmpty : Option String → String
  | none => ""
  | some s => s

/-- `hashes_equal` of src/utils/hash.py lines 51-57: both arguments are
defaulted through `or b""` and compared with `hmac.compare_digest`, whose
result is equality of the byte strings. -/
def hashes_equal (h1 h2 : Option String) : Bool :=
  orEmpty h1 = orEmpty h2

/-- The attachment-fingerprint comparison of `in_redis_issues`
(src/__main__.py lines 207-213): both fields truthy → compare digests;
both falsy → equal; mixed → unequal. -/
def equal_attachment (redisAtt jiraAtt : Option String) : Bool :=
  if truthy redisAtt && truthy jiraAtt then
    hashes_equal redisAtt jiraAtt
  else if !truthy redisAtt && !truthy jiraAtt then
    true
  else
    false

/-- Little-endian byte serialization: `leBytes k n` is the `k`-byte
little-endian encoding of `n` (truncating at `2 ^ (8 * k)`). -/
def leBytes : Nat → Nat → List Nat
  | 0, _ => []
  | k + 1, n => (n % 256) :: leBytes k (n / 256)

/-- `struct.pack("<Q", n)`: 8-byte little-endian unsigned encoding. -/
def pack_u64le (n : Nat) : List Nat := leBytes 8 n

/-- `struct.pack("<q", x)`: 8-byte little-endian two's-complement encoding;
faithful for `-2^63 ≤ x < 2^63` (outside that range Python raises, which the
theorems exclude by hypothesis). -/
def pack_i64le (x : Int) : List Nat := leBytes 8 (x % (2 ^ 64 : Int)).toNat

/-- `hash_seq` of src/utils/hash.py lines 39-44: serialize the length as
8-byte little-endian, then every value as signed 64-bit little-endian, and
hash the byte sequence.  The blake3 digest primitive is an external library,
modelled as the explicit parameter `H`. -/
def hash_seq (H : List Nat → String) (ints : List Int) : String :=
  H (pack_u64le ints.length ++ (ints.map pack_i64le).flatten)

/-- `sorted(set(ints))` of src/utils/hash.py line 48: deduplicate, then sort
ascending. -/
def uniqSorted (ints : List Int) : List Int :=
  ints.toFinset.sort (· ≤ ·)

/-- `hash_attachment_id` of src/utils/hash.py lines 47-49. -/
def hash_attachment_id (H : List Nat → String) (ints : List Int) : String :=
  hash_seq H (uniqSorted ints)

/-! ## Claims C7, C8, C10 -/

/-- Claim C7: the id-set fingerprint is order- and duplicate-insensitive —
two lists of signed-64-bit integers with the same set of values yield the
same digest, and the digest is the hash of the 8-byte little-endian count
followed by each value in signed 64-bit little-endian form, taken over the
deduplicated ascending-sorted values. -/
theorem c7_id_set_fingerprint_set_invariant
    (H : List Nat → String) (l₁ l₂ : List Int)
    (h₁ : ∀ x ∈ l₁, -(2 ^ 63) ≤ x ∧ x < 2 ^ 63)
    (h₂ : ∀ x ∈ l₂, -(2 ^ 63) ≤ x ∧ x < 2 ^ 63)
    (hset : l₁.toFinset = l₂.toFinset) :
    hash_attachment_id H l₁ = hash_attachment_id H l₂ ∧
      hash_attachment_id H l₁ =
        H (pack_u64le (uniqSorted l₁).length ++ ((uniqSorted l₁).map pack_i64le).flatten) := by
  constructor
  · unfold hash_attachment_id uniqSorted
    rw [hset]
  · rfl

/-- Witness for C7 at the spec's own example: `[3,1,2]` and `[1,2,2,3,1]`
have the same value set and fingerprint identically. -/
theorem c7_witness :
    ((∀ x ∈ ([3, 1, 2] : List Int), -(2 ^ 63) ≤ x ∧ x < 2 ^ 63) ∧
     (∀ x ∈ ([1, 2, 2, 3, 1] : List Int), -(2 ^ 63) ≤ x ∧ x < 2 ^ 63) ∧
     ([3, 1, 2] : List Int).toFinset = ([1, 2, 2, 3, 1] : List Int).toFinset) ∧
    hash_attachment_id (fun bs => toString bs) [3, 1, 2] =
      hash_attachment_id (fun bs => toString bs) [1, 2, 2, 3, 1] :=
  ⟨⟨by decide, by decide, by decide⟩,
    (c7_id_set_fingerprint_set_invariant (fun bs => toString bs) [3, 1, 2] [1, 2, 2, 3, 1]
      (by decide) (by decide) (by decide)).1⟩

/-- Claim C8: digest equality treats two absent digests as equal and an
absent digest against a present (non-empty) digest as unequal; the
attachment-fingerprint comparison classifies both-sides-absent as equal and
one-absent-one-present as unequal. -/
theorem c8_absent_digest_semantics :
    (hashes_equal none none = true) ∧
    (∀ s : String, s ≠ "" →
      hashes_equal none (some s) = false ∧ hashes_equal (some s) none = false) ∧
    (equal_attachment none none = true) ∧
    (∀ a b : Option String, truthy a = false → truthy b = true →
      equal_attachment a b = false ∧ equal_attachment b a = false) := by
  refine ⟨rfl, ?_, rfl, ?_⟩
  · intro s hs
    constructor
    · simp only [hashes_equal, orEmpty, decide_eq_false_iff_not]
      exact fun h => hs h.symm
    · simp only [hashes_equal, orEmpty, decide_eq_false_iff_not]
      exact hs
  · intro a b ha hb
    constructor <;> simp [equal_attachment, ha, hb]

/-- Witness for C8 at concrete digests: absent vs the present digest "ab". -/
theorem c8_witness :
    (("ab" : String) ≠ "" ∧
      hashes_equal none (some "ab") = false ∧ hashes_equal (some "ab") none = false) ∧
    (truthy none = false ∧ truthy (some "ab") = true ∧
      equal_attachment none (some "ab") = false ∧ equal_attachment (some "ab") none = false) :=
  ⟨⟨by decide, c8_absent_digest_semantics.2.1 "ab" (by decide)⟩,
    ⟨by decide, by decide, c8_absent_digest_semantics.2.2.2 none (some "ab") (by decide) (by decide)⟩⟩

/-- Claim C10 (implicit): a present-but-empty digest is indistinguishable
from an absent one at the `hashes_equal` interface — the empty string and
`None` compare equal to each other and behave identically against every
other argument. -/
theorem c10_empty_digest_equals_absent :
    (∀ x : Option String,
      hashes_equal (some "") x = hashes_equal none x ∧
      hashes_equal x (some "") = hashes_equal x none) ∧
    hashes_equal (some "") none = true ∧
    hashes_equal none (some "") = true ∧
    hashes_equal (some "") (some "") = true := by
  refine ⟨?_, rfl, rfl, rfl⟩
  intro x
  cases x <;> simp [hashes_equal, orEmpty]

/-! ## State store — src/storage/repository.py -/

/-- One Redis hash under an `issue:{id}` key: every field is a string and may
be present or absent, exactly as `HSET`/`HGET` see them. -/
structure IssueRec where
  created_at : Option Nat
  h_description : Option String
  h_attachment : Option String
  updated_at : Option Nat
  deriving DecidableEq, Repr

/-- The Lua script `UPSERT_J_ISSUE_LUA` (src/storage/repository.py lines
8-31), run atomically on the record stored under one key.  `none` models a
key for which `EXISTS` is 0; `now` models `redis.call('TIME')[1]` (the script
reads the clock twice within one atomic execution; both reads are modelled by
the same value).  The returned list is the Lua `changed` table. -/
def upsertJIssueLua (st : Option IssueRec) (now : Nat) (new_desc new_att : String) :
    IssueRec × List String :=
  let rec0 : IssueRec :=
    match st with
    | none => { created_at := some now, h_description := none,
                h_attachment := none, updated_at := none }
    | some r => r
  let old_desc := rec0.h_description
  let old_att := rec0.h_attachment.getD ""
  let step1 : IssueRec × List String :=
    if old_desc = none ∨ old_desc ≠ some new_desc then
      ({ rec0 with h_description := some new_desc }, ["desc"])
    else (rec0, [])
  let step2 : IssueRec × List String :=
    if old_att ≠ new_att then
      ({ step1.1 with h_attachment := some new_att }, step1.2 ++ ["attach"])
    else step1
  if step2.2 ≠ [] then
    ({ step2.1 with updated_at := some now }, step2.2)
  else step2

/-- `upsert_issue_hash` (src/storage/repository.py lines 93-105): runs the
Lua script with `h_attachment or ""` and returns `bool(is_new)`, where
`is_new` is the value the script returned — the Lua `changed` table, which
redis-py delivers as a Python list, so `bool` is emptiness of that list. -/
def upsert_issue_hash (st : Option IssueRec) (now : Nat)
    (h_description : String) (h_attachment : Option String) :
    IssueRec × Bool :=
  let r := upsertJIssueLua st now h_description (h_attachment.getD "")
  (r.1, r.2 ≠ [])

/-! ## Claim C1 -/

/-- Claim C1 (code_bug evaluation): the docstring of `upsert_issue_hash`
("returns True if the record is new (created), else False") and the claim
require any call on an existing key to report "already existed"; evaluating
the code shows: a first call on a fresh key returns `true` and a repeated
identical call returns `false` with `updated_at` untouched (as claimed), but
a call on an existing record with a different description fingerprint
returns `true` — reporting an existing record as newly created — while
writing the field and bumping `updated_at`. -/
theorem c1_upsert_report_diverges :
    -- first call on a fresh key: reported new, record created at time 1
    (upsert_issue_hash none 1 "aaaa" none).2 = true ∧
    -- second, identical call: reported existing, updated_at unchanged
    (upsert_issue_hash (some (upsert_issue_hash none 1 "aaaa" none).1) 2 "aaaa" none) =
      ((upsert_issue_hash none 1 "aaaa" none).1, false) ∧
    -- second call with a different fingerprint on the existing record:
    -- the changed field is written and updated_at bumped, but the call
    -- reports `true` ("newly created") although the record existed
    (upsert_issue_hash (some (upsert_issue_hash none 1 "aaaa" none).1) 2 "bbbb" none) =
      ({ created_at := some 1, h_description := some "bbbb",
         h_attachment := none, updated_at := some 2 }, true) := by
  decide

/-! ## Polling loop and pass-fatal failures — src/__main__.py lines 383-459 -/

/-- Python exception classes relevant to the loop: `sys.exit(1)` raises
`SystemExit`, which subclasses `BaseException` but not `Exception`; all
other failures in a pass surface as `Exception` subclasses. -/
inductive PyErr where
  | exception
  | systemExit (code : Nat)
  deriving DecidableEq, Repr

/-- Outcome of one `job()` call together with whether an operator
notification was sent before the outcome. -/
structure JobOutcome where
  alerted : Bool
  result : Option PyErr   -- `none` = returned normally
  deriving DecidableEq, Repr

/-- Failure environment of one pass. -/
structure JobEnv where
  jiraFetchFails : Bool      -- fetching the Jira issue list raises
  planfixAuthFails : Bool    -- `planfix.get_sid` raises
  bodyRaises : Bool          -- any other Exception inside the pass body
  deriving DecidableEq, Repr

/-- `job` (src/__main__.py lines 383-449), reduced to its control flow: a
Jira list-fetch failure is caught, alerted, and answered with `sys.exit(1)`;
a Planfix authentication failure likewise; any other uncaught failure of the
body propagates as an ordinary `Exception`. -/
def job (env : JobEnv) : JobOutcome :=
  if env.jiraFetchFails then ⟨true, some (.systemExit 1)⟩
  else if env.planfixAuthFails then ⟨true, some (.systemExit 1)⟩
  else if env.bodyRaises then ⟨false, some .exception⟩
  else ⟨false, none⟩

/-- What one iteration of the `while True` loop in `main`
(src/__main__.py lines 451-459) leads to. -/
inductive LoopStep where
  | continues           -- next pass will be attempted after the sleep
  | terminates (code : Nat)  -- exception escapes the loop; process exits
  deriving DecidableEq, Repr

/-- One iteration of `main`'s loop: `try: await job()` with
`except Exception` — which catches `PyErr.exception` but not
`PyErr.systemExit` (SystemExit is not an `Exception` subclass), so a
`SystemExit` propagates past the loop, after the `finally` sleep, and
terminates the process. -/
def mainLoopIter (env : JobEnv) : LoopStep :=
  match (job env).result with
  | none => .continues
  | some .exception => .continues
  | some (.systemExit c) => .terminates c

/-! ## Claim C2 -/

/-- Claim C2 counterexample: with a failing Jira issue-list fetch the claim
says the pass aborts but the loop continues to the next scheduled pass; the
code instead terminates the whole process (exit code 1), because `job`
answers the failure with `sys.exit(1)` and `except Exception` does not catch
`SystemExit`. -/
theorem c2_counterexample :
    mainLoopIter ⟨true, false, false⟩ ≠ LoopStep.continues ∧
    mainLoopIter ⟨true, false, false⟩ = LoopStep.terminates 1 := by
  decide

/-- Claim C2 amended: a source issue-list fetch failure or a destination
authentication failure aborts the pass with a notification and then
terminates the process with exit status 1 (`sys.exit(1)` raises
`SystemExit`, which the loop's `except Exception` does not catch); only
ordinary exceptions from the pass body keep the loop running. -/
theorem c2_fatal_failures_terminate_process :
    ((job ⟨true, false, false⟩).alerted = true ∧
      mainLoopIter ⟨true, false, false⟩ = LoopStep.terminates 1) ∧
    ((job ⟨false, true, false⟩).alerted = true ∧
      mainLoopIter ⟨false, true, false⟩ = LoopStep.terminates 1) ∧
    mainLoopIter ⟨false, false, true⟩ = LoopStep.continues ∧
    mainLoopIter ⟨false, false, false⟩ = LoopStep.continues := by
  decide

/-! ## Reconciliation pass — src/__main__.py lines 183-449

The pass is modelled as a pure function from its inputs (the fetched Jira
data, the fingerprint list, the state-store contents, and a failure
environment describing which Planfix calls raise `RuntimeError`) to the
final store plus an ordered trace of the side-effecting calls it makes.
Call payloads (titles, descriptions, file contents) are elided from the
events; the identities of the calls and their order are kept. -/

/-- One element of `issue_hash_list` built by `hash_jira_issue_data`:
`h_attachment` is `None` when the issue has no attachments. -/
structure IssueHash where
  issue_id : Int
  h_description : String
  h_attachment : Option String
  deriving DecidableEq, Repr

/-- One element of `updated_issues_data`: the change flags recorded by
`in_redis_issues` (`True` = the corresponding fingerprint differs). -/
structure UpdFlags where
  id : Int
  h_description : Bool
  h_attachment : Bool
  deriving DecidableEq, Repr

/-- One element of `jira_issues_list_data` as consumed structurally by the
upload phase: the issue id and its attachment-id list (title, description
and link are opaque payloads of the Planfix calls and are elided). -/
structure JiraIssue where
  id : Int
  attachment : List Int
  deriving DecidableEq, Repr

/-- The Redis state visible to the pass: `issue:{j}` records and
`issue_link:{j}` records (the latter reduced to the stored `p_issue`). -/
structure Store where
  issues : Int → Option IssueRec
  links : Int → Option Int

/-- `HSET` of a whole issue record under `issue:{j}`. -/
def Store.setIssue (st : Store) (j : Int) (r : IssueRec) : Store :=
  { st with issues := fun k => if k = j then some r else st.issues k }

/-- Creation of an `issue_link:{j}` record mapping to Planfix task `p`. -/
def Store.setLink (st : Store) (j p : Int) : Store :=
  { st with links := fun k => if k = j then some p else st.links k }

/-- A side-effecting call of the upload phase.  `j` is always the Jira issue
id the call serves; `p` a Planfix task id; `issue_key` the directory key
passed to the attachment download (the Planfix id in the update path, the
Jira id in the create path — mirroring lines 306 and 363 of the source). -/
inductive Event where
  | upsertIssueHash (j : Int)
  | upsertIssueLink (j p : Int)
  | updateDescriptionTask (p j : Int)
  | getAttachments (issue_key j : Int)
  | uploadFile (p j : Int)
  | addTask (j : Int)
  | alert
  deriving DecidableEq, Repr

/-- The Jira issue id an event concerns (`alert` carries none). -/
def Event.jiraId : Event → Option Int
  | .upsertIssueHash j => some j
  | .upsertIssueLink j _ => some j
  | .updateDescriptionTask _ j => some j
  | .getAttachments _ j => some j
  | .uploadFile _ j => some j
  | .addTask j => some j
  | .alert => none

/-- Is the event a persisted-fingerprint write (`repo.upsert_issue_hash`)? -/
def Event.isHashWrite : Event → Bool
  | .upsertIssueHash _ => true
  | _ => false

/-- Is the event a destination (Planfix) mutation call? -/
def Event.isPlanfixMutation : Event → Bool
  | .updateDescriptionTask _ _ => true
  | .uploadFile _ _ => true
  | .addTask _ => true
  | _ => false

/-- Which Planfix calls raise `RuntimeError` in this pass, keyed by the Jira
issue id they serve. -/
structure Failures where
  updateDescFails : Int → Bool
  uploadFileFails : Int → Bool
  addTaskFails : Int → Bool

/-- The body of one `in_redis_issues` loop iteration (src/__main__.py lines
198-227): compare the stored fingerprints with the current ones and decide
whether the issue is appended to `updated_issues_data` (returned flags) and
to `upload_issues_to_planfix_ids`.  `none` covers both the skip case
(`equal_description` and `equal_attachment` both true) and the caught
per-issue exception cases (missing record, missing hash entry, missing
field), which alert and continue. -/
def inRedisStep (st : Store) (ihl : List IssueHash) (issue_id : Int) : Option UpdFlags :=
  match st.issues issue_id, ihl.find? (fun i => i.issue_id = issue_id) with
  | some redis_issue, some jira_issue =>
    match redis_issue.h_description with
    | none => none
    | some rdesc =>
      let equal_description := hashes_equal (some rdesc) (some jira_issue.h_description)
      let equal_att := equal_attachment redis_issue.h_attachment jira_issue.h_attachment
      if equal_description && equal_att then none
      else some ⟨issue_id, !equal_description, !equal_att⟩
  | _, _ => none

/-- `in_redis_issues` (src/__main__.py lines 183-227): returns what the
source appends to `updated_issues_data` and to
`upload_issues_to_planfix_ids`, in iteration order. -/
def in_redis_issues (st : Store) (ihl : List IssueHash) :
    List Int → List UpdFlags × List Int
  | [] => ([], [])
  | i :: rest =>
    let r := in_redis_issues st ihl rest
    match inRedisStep st ihl i with
    | some f => (f :: r.1, i :: r.2)
    | none => r

/-- First loop of `upload_issues_to_planfix` (src/__main__.py lines
246-265): upsert the fingerprint record of every issue in the upload list
into Redis, before any Planfix call. -/
def phaseA (now : Nat) (uploadIds : List Int) :
    Store → List IssueHash → Store × List Event
  | st, [] => (st, [])
  | st, ih :: rest =>
    if ih.issue_id ∈ uploadIds then
      let u := upsert_issue_hash (st.issues ih.issue_id) now ih.h_description ih.h_attachment
      let r := phaseA now uploadIds (st.setIssue ih.issue_id u.1) rest
      (r.1, Event.upsertIssueHash ih.issue_id :: r.2)
    else phaseA now uploadIds st rest

/-- The `in_planfix_ids` loop of `upload_issues_to_planfix`
(src/__main__.py lines 278-324): targeted updates against the linked
Planfix task.  A `RuntimeError` from either call is caught, alerted, and the
loop continues; a failed `next(...)` lookup raises `StopIteration`, which
nothing catches (`true` in the result), ending the pass. -/
def phaseB (fails : Failures) (upd : List UpdFlags) (jl : List JiraIssue) :
    List (Int × Int) → List Event × Bool
  | [] => ([], false)
  | (p, j) :: rest =>
    match upd.find? (fun u => u.id = j), jl.find? (fun i => i.id = j) with
    | some issue_data, some _jira_issue_data =>
      let evDesc :=
        if issue_data.h_description then
          if fails.updateDescFails j then [Event.updateDescriptionTask p j, Event.alert]
          else [Event.updateDescriptionTask p j]
        else []
      let evAtt :=
        if issue_data.h_attachment then
          if fails.uploadFileFails j then
            [Event.getAttachments p j, Event.uploadFile p j, Event.alert]
          else [Event.getAttachments p j, Event.uploadFile p j]
        else []
      let r := phaseB fails upd jl rest
      (evDesc ++ evAtt ++ r.1, r.2)
    | _, _ => ([], true)

/-- The `not_in_planfix_ids` loop of `upload_issues_to_planfix`
(src/__main__.py lines 326-380): create the Planfix task, then the link
record, then upload attachments if any.  A `RuntimeError` from `add_task`
alerts and then `return`s — aborting the remaining issues of the phase
without raising; a `RuntimeError` from the attachment upload alerts and
continues; a failed `next(...)` lookup raises. -/
def phaseC (fails : Failures) (jl : List JiraIssue) (newTaskId : Int → Int) :
    Store → List Int → Store × List Event × Bool
  | st, [] => (st, [], false)
  | st, j :: rest =>
    match jl.find? (fun i => i.id = j) with
    | none => (st, [], true)
    | some jd =>
      if fails.addTaskFails j then (st, [Event.addTask j, Event.alert], false)
      else
        let p := newTaskId j
        let evThis :=
          Event.addTask j :: Event.upsertIssueLink j p ::
            (if jd.attachment ≠ [] then
              if fails.uploadFileFails j then
                [Event.getAttachments j j, Event.uploadFile p j, Event.alert]
              else [Event.getAttachments j j, Event.uploadFile p j]
            else [])
        let r := phaseC fails jl newTaskId (st.setLink j p) rest
        (r.1, evThis ++ r.2.1, r.2.2)

/-- Result of the upload phase: final store, ordered call trace, and whether
an uncaught exception (`StopIteration` from a `next(...)` lookup)
propagated. -/
structure UploadOutcome where
  store : Store
  events : List Event
  raised : Bool

/-- `upload_issues_to_planfix` (src/__main__.py lines 230-380): upsert all
fingerprints (phase A), split the upload list by link-record presence, run
targeted updates (phase B) and creations (phase C).  `newTaskId` models the
task id Planfix returns from a successful `add_task`.  The source's
`if in_planfix_ids:` / `if not_in_planfix_ids:` guards are omitted: each
guards a `for` loop that does nothing on an empty list, exactly as the
phase functions do. -/
def upload_issues_to_planfix (fails : Failures) (now : Nat) (newTaskId : Int → Int)
    (st : Store) (ihl : List IssueHash) (upd : List UpdFlags) (jl : List JiraIssue)
    (uploadIds : List Int) : UploadOutcome :=
  if uploadIds = [] then ⟨st, [], false⟩
  else
    let a := phaseA now uploadIds st ihl
    let inPlanfixIds := uploadIds.filterMap (fun j => (a.1.links j).map (fun p => (p, j)))
    let notInPlanfixIds := uploadIds.filter (fun j => (a.1.links j).isNone)
    let b := phaseB fails upd jl inPlanfixIds
    if b.2 then ⟨a.1, a.2 ++ b.1, true⟩
    else
      let c := phaseC fails jl newTaskId a.1 notInPlanfixIds
      ⟨c.1, a.2 ++ b.1 ++ c.2.1, c.2.2⟩

/-- The issue-level part of one pass as sequenced by `job` (src/__main__.py
lines 421-443): split the fetched Jira ids into unseen ids and known ids
(the source uses Python set difference, whose order is unspecified; the
model keeps first-occurrence order), run `in_redis_issues` on the known
ones — appending changed ids to the upload list — and then the upload
phase. -/
def jobPass (fails : Failures) (now : Nat) (newTaskId : Int → Int)
    (st : Store) (ihl : List IssueHash) (jl : List JiraIssue)
    (jiraIds redisIds : List Int) : UploadOutcome :=
  let upload0 := jiraIds.filter (fun j => j ∉ redisIds)
  let knownIds := jiraIds.filter (fun j => j ∈ redisIds)
  let r := in_redis_issues st ihl knownIds
  upload_issues_to_planfix fails now newTaskId st ihl r.1 jl (upload0 ++ r.2)

/-! ## Phase trace lemmas -/

/-- Every event of phase A is a fingerprint upsert. -/
theorem phaseA_events_hash (now : Nat) (uploadIds : List Int) :
    ∀ (ihl : List IssueHash) (st : Store),
      ∀ e ∈ (phaseA now uploadIds st ihl).2, e.isHashWrite = true := by
  intro ihl
  induction ihl with
  | nil => intro st e he; simp [phaseA] at he
  | cons ih rest IH =>
    intro st e he
    by_cases h : ih.issue_id ∈ uploadIds
    · simp only [phaseA, if_pos h, List.mem_cons] at he
      rcases he with rfl | he
      · rfl
      · exact IH _ e he
    · simp only [phaseA, if_neg h] at he
      exact IH _ e he

/-- Unpacking membership in an if-then-else of two lists. -/
theorem mem_of_mem_ite {α : Type} {c : Prop} [Decidable c] {l₁ l₂ : List α} {e : α}
    (h : e ∈ if c then l₁ else l₂) : e ∈ l₁ ∨ e ∈ l₂ := by
  split at h
  · exact Or.inl h
  · exact Or.inr h

/-- No event of phase B is a fingerprint upsert. -/
theorem phaseB_events_not_hash (fails : Failures) (upd : List UpdFlags) (jl : List JiraIssue) :
    ∀ pairs : List (Int × Int),
      ∀ e ∈ (phaseB fails upd jl pairs).1, e.isHashWrite = false := by
  intro pairs
  induction pairs with
  | nil => intro e he; simp [phaseB] at he
  | cons pj rest IH =>
    intro e he
    obtain ⟨p, j⟩ := pj
    simp only [phaseB] at he
    rcases hu : upd.find? (fun u => u.id = j) with _ | issue_data <;> rw [hu] at he <;>
      rcases hj : jl.find? (fun i => i.id = j) with _ | jd <;> rw [hj] at he
    · simp at he
    · simp at he
    · simp at he
    · simp only [List.mem_append] at he
      rcases he with (hd | ha) | hr
      · rcases mem_of_mem_ite hd with h | h
        · rcases mem_of_mem_ite h with h2 | h2 <;> fin_cases h2 <;> rfl
        · simp at h
      · rcases mem_of_mem_ite ha with h | h
        · rcases mem_of_mem_ite h with h2 | h2 <;> fin_cases h2 <;> rfl
        · simp at h
      · exact IH e hr

/-- No event of phase C is a fingerprint upsert. -/
theorem phaseC_events_not_hash (fails : Failures) (jl : List JiraIssue) (newTaskId : Int → Int) :
    ∀ (ids : List Int) (st : Store),
      ∀ e ∈ (phaseC fails jl newTaskId st ids).2.1, e.isHashWrite = false := by
  intro ids
  induction ids with
  | nil => intro st e he; simp [phaseC] at he
  | cons j rest IH =>
    intro st e he
    simp only [phaseC] at he
    split at he
    · simp at he
    · split at he
      · dsimp only at he
        fin_cases he <;> rfl
      · dsimp only at he
        simp only [List.cons_append, List.mem_cons, List.mem_append] at he
        rcases he with rfl | rfl | hm | hr
        · rfl
        · rfl
        · rcases mem_of_mem_ite hm with h | h
          · rcases mem_of_mem_ite h with h2 | h2 <;> fin_cases h2 <;> rfl
          · simp at h
        · exact IH _ e hr

/-! ## Claim C4 -/

/-- Claim C4 counterexample: one changed issue (id 1) that is known and
linked to Planfix task 10.  The pass trace is the fingerprint upsert first
and the destination description update second — the stored fingerprint is
persisted before the corresponding destination mutation, contradicting the
claim that the pass never does so. -/
theorem c4_counterexample :
    (upload_issues_to_planfix
      ⟨fun _ => false, fun _ => false, fun _ => false⟩ 7 (fun j => j + 100)
      ⟨fun k => if k = 1 then some ⟨some 0, some "old", none, some 0⟩ else none,
       fun k => if k = 1 then some 10 else none⟩
      [⟨1, "newdesc", none⟩] [⟨1, true, false⟩] [⟨1, []⟩] [1]).events =
      [Event.upsertIssueHash 1, Event.updateDescriptionTask 10 1] ∧
    Event.isHashWrite (Event.upsertIssueHash 1) = true ∧
    Event.isPlanfixMutation (Event.updateDescriptionTask 10 1) = true := by
  decide

/-- Claim C4 amended: within one pass the stored issue-record fingerprints
of all to-be-processed issues are persisted at the start of the upload
phase, before any destination mutation — the trace always splits into a
prefix of fingerprint upserts followed by events none of which is a
fingerprint upsert (in particular every destination update comes after
every fingerprint persist, not before). -/
theorem c4_fingerprints_persisted_before_mutations
    (fails : Failures) (now : Nat) (newTaskId : Int → Int) (st : Store)
    (ihl : List IssueHash) (upd : List UpdFlags) (jl : List JiraIssue)
    (uploadIds : List Int) :
    ∃ pre post,
      (upload_issues_to_planfix fails now newTaskId st ihl upd jl uploadIds).events =
        pre ++ post ∧
      (∀ e ∈ pre, e.isHashWrite = true) ∧
      (∀ e ∈ post, e.isHashWrite = false) := by
  by_cases h : uploadIds = []
  · refine ⟨[], [], ?_, by simp, by simp⟩
    simp [upload_issues_to_planfix, h]
  · dsimp only [upload_issues_to_planfix]
    rw [if_neg h]
    split
    · exact ⟨_, _, rfl, phaseA_events_hash now uploadIds ihl st,
        phaseB_events_not_hash fails upd jl _⟩
    · refine ⟨_, _, List.append_assoc _ _ _, phaseA_events_hash now uploadIds ihl st, ?_⟩
      intro e he
      rcases List.mem_append.1 he with h1 | h2
      · exact phaseB_events_not_hash fails upd jl _ e h1
      · exact phaseC_events_not_hash fails jl newTaskId _ _ e h2

/-! ## Claim C3 -/

/-- Claim C3 counterexample: two unseen issues (1 and 2), and the Planfix
create-task call fails for issue 1.  The claim says processing continues
with the next issue; the code instead `return`s from the upload phase after
alerting, so issue 2 is never processed — no create-task call for it
appears in the trace. -/
theorem c3_counterexample :
    (upload_issues_to_planfix
      ⟨fun _ => false, fun _ => false, fun j => j = 1⟩ 7 (fun j => j + 100)
      ⟨fun _ => none, fun _ => none⟩
      [⟨1, "d1", none⟩, ⟨2, "d2", none⟩] [] [⟨1, []⟩, ⟨2, []⟩] [1, 2]).events =
      [Event.upsertIssueHash 1, Event.upsertIssueHash 2, Event.addTask 1, Event.alert] ∧
    Event.addTask 2 ∉
      (upload_issues_to_planfix
        ⟨fun _ => false, fun _ => false, fun j => j = 1⟩ 7 (fun j => j + 100)
        ⟨fun _ => none, fun _ => none⟩
        [⟨1, "d1", none⟩, ⟨2, "d2", none⟩] [] [⟨1, []⟩, ⟨2, []⟩] [1, 2]).events := by
  decide

/-- Claim C3 amended: a destination-mutation failure in the update path of
an issue (description update or attachment upload) is caught, alerted, and
processing continues — every linked pair still gets its description-update
attempt no matter which calls fail; but a create-task failure for an unseen
issue, after its alert, aborts the remainder of the upload phase: the trace
ends with that create attempt and its alert, and the remaining unseen
issues are not processed in this pass. -/
theorem c3_item_failure_semantics
    (fails : Failures) (upd : List UpdFlags) (jl : List JiraIssue)
    (newTaskId : Int → Int) :
    (∀ pairs : List (Int × Int),
      (∀ pj ∈ pairs, (upd.find? (fun u => u.id = pj.2)).isSome ∧
        (jl.find? (fun i => i.id = pj.2)).isSome) →
      ∀ pj ∈ pairs, ∀ u, upd.find? (fun u => u.id = pj.2) = some u →
        u.h_description = true →
        Event.updateDescriptionTask pj.1 pj.2 ∈ (phaseB fails upd jl pairs).1) ∧
    (∀ (pre : List Int) (j : Int) (rest : List Int) (st : Store),
      (∀ i ∈ pre, (jl.find? (fun x => x.id = i)).isSome ∧ fails.addTaskFails i = false) →
      (jl.find? (fun x => x.id = j)).isSome →
      fails.addTaskFails j = true →
      (phaseC fails jl newTaskId st (pre ++ j :: rest)).2.1 =
        (phaseC fails jl newTaskId st pre).2.1 ++ [Event.addTask j, Event.alert] ∧
      (phaseC fails jl newTaskId st (pre ++ j :: rest)).2.2 = false) := by
  constructor
  · intro pairs
    induction pairs with
    | nil => intro _ pj hpj; simp at hpj
    | cons hd rest IH =>
      intro hok pj hpj u hu hflag
      obtain ⟨p0, j0⟩ := hd
      obtain ⟨hu0, hj0⟩ := hok (p0, j0) (List.mem_cons_self _ _)
      obtain ⟨u0, hu0'⟩ := Option.isSome_iff_exists.1 hu0
      obtain ⟨jd0, hj0'⟩ := Option.isSome_iff_exists.1 hj0
      have hunf : (phaseB fails upd jl ((p0, j0) :: rest)).1 =
          (if u0.h_description then
            if fails.updateDescFails j0 then [Event.updateDescriptionTask p0 j0, Event.alert]
            else [Event.updateDescriptionTask p0 j0]
          else []) ++
          ((if u0.h_attachment then
            if fails.uploadFileFails j0 then
              [Event.getAttachments p0 j0, Event.uploadFile p0 j0, Event.alert]
            else [Event.getAttachments p0 j0, Event.uploadFile p0 j0]
          else []) ++ (phaseB fails upd jl rest).1) := by
        simp only [phaseB, hu0', hj0', List.append_assoc]
      rcases List.mem_cons.1 hpj with rfl | hmem
      · have : u0 = u := by
          rw [hu0'] at hu; exact (Option.some_inj.1 hu)
        subst this
        rw [hunf]
        apply List.mem_append_left
        rw [if_pos hflag]
        split
        · exact List.mem_cons_self _ _
        · exact List.mem_singleton.2 rfl
      · rw [hunf]
        apply List.mem_append_right
        apply List.mem_append_right
        exact IH (fun q hq => hok q (List.mem_cons_of_mem _ hq)) pj hmem u hu hflag
  · intro pre
    induction pre with
    | nil =>
      intro j rest st _ hj hfail
      obtain ⟨jd, hjd⟩ := Option.isSome_iff_exists.1 hj
      constructor <;> simp [phaseC, hjd, hfail]
    | cons i pre' IH =>
      intro j rest st hok hj hfail
      obtain ⟨hji, hfi⟩ := hok i (List.mem_cons_self _ _)
      obtain ⟨jdi, hjdi⟩ := Option.isSome_iff_exists.1 hji
      have hok' : ∀ x ∈ pre', (jl.find? (fun y => y.id = x)).isSome ∧
          fails.addTaskFails x = false :=
        fun x hx => hok x (List.mem_cons_of_mem _ hx)
      have IH' := IH j rest (st.setLink i (newTaskId i)) hok' hj hfail
      constructor
      · have h1 : (phaseC fails jl newTaskId st ((i :: pre') ++ j :: rest)).2.1 =
            (Event.addTask i :: Event.upsertIssueLink i (newTaskId i) ::
              (if jdi.attachment ≠ [] then
                if fails.uploadFileFails i then
                  [Event.getAttachments i i, Event.uploadFile (newTaskId i) i, Event.alert]
                else [Event.getAttachments i i, Event.uploadFile (newTaskId i) i]
              else [])) ++
            (phaseC fails jl newTaskId (st.setLink i (newTaskId i)) (pre' ++ j :: rest)).2.1 := by
          simp only [List.cons_append, phaseC, hjdi, hfi, if_false, Bool.false_eq_true,
            List.append_eq]
        have h2 : (phaseC fails jl newTaskId st (i :: pre')).2.1 =
            (Event.addTask i :: Event.upsertIssueLink i (newTaskId i) ::
              (if jdi.attachment ≠ [] then
                if fails.uploadFileFails i then
                  [Event.getAttachments i i, Event.uploadFile (newTaskId i) i, Event.alert]
                else [Event.getAttachments i i, Event.uploadFile (newTaskId i) i]
              else [])) ++
            (phaseC fails jl newTaskId (st.setLink i (newTaskId i)) pre').2.1 := by
          simp only [phaseC, hjdi, hfi, if_false, Bool.false_eq_true]
        rw [h1, h2, IH'.1, List.append_assoc]
      · have h3 : (phaseC fails jl newTaskId st ((i :: pre') ++ j :: rest)).2.2 =
            (phaseC fails jl newTaskId (st.setLink i (newTaskId i)) (pre' ++ j :: rest)).2.2 := by
          simp only [List.cons_append, phaseC, hjdi, hfi, if_false, Bool.false_eq_true,
            List.append_eq]
        rw [h3, IH'.2]

/-- Witness for C3 amended, at a concrete scenario: a failing description
update for linked issue 1 still leaves its update attempt in the trace, and
a create failure for unseen issue 5 between issues 4 and 6 cuts the trace
after the alert, with issue 6 unprocessed. -/
theorem c3_witness :
    ((∀ pj ∈ ([(10, 1)] : List (Int × Int)),
        (([⟨1, true, false⟩] : List UpdFlags).find? (fun u => u.id = pj.2)).isSome ∧
        (([⟨1, []⟩, ⟨4, []⟩, ⟨5, []⟩, ⟨6, []⟩] : List JiraIssue).find?
          (fun i => i.id = pj.2)).isSome) ∧
      Event.updateDescriptionTask 10 1 ∈
        (phaseB ⟨fun _ => true, fun _ => false, fun j => j = 5⟩
          [⟨1, true, false⟩] [⟨1, []⟩, ⟨4, []⟩, ⟨5, []⟩, ⟨6, []⟩] [(10, 1)]).1) ∧
    ((phaseC ⟨fun _ => true, fun _ => false, fun j => j = 5⟩
        [⟨1, []⟩, ⟨4, []⟩, ⟨5, []⟩, ⟨6, []⟩] (fun j => j + 100)
        ⟨fun _ => none, fun _ => none⟩ ([4] ++ 5 :: [6])).2.1 =
      (phaseC ⟨fun _ => true, fun _ => false, fun j => j = 5⟩
        [⟨1, []⟩, ⟨4, []⟩, ⟨5, []⟩, ⟨6, []⟩] (fun j => j + 100)
        ⟨fun _ => none, fun _ => none⟩ [4]).2.1 ++ [Event.addTask 5, Event.alert]) := by
  constructor
  · refine ⟨by decide, ?_⟩
    exact (c3_item_failure_semantics ⟨fun _ => true, fun _ => false, fun j => j = 5⟩
      [⟨1, true, false⟩] [⟨1, []⟩, ⟨4, []⟩, ⟨5, []⟩, ⟨6, []⟩] (fun j => j + 100)).1
      [(10, 1)] (by decide) (10, 1) (by decide) ⟨1, true, false⟩ (by decide) (by decide)
  · exact ((c3_item_failure_semantics ⟨fun _ => true, fun _ => false, fun j => j = 5⟩
      [⟨1, true, false⟩] [⟨1, []⟩, ⟨4, []⟩, ⟨5, []⟩, ⟨6, []⟩] (fun j => j + 100)).2
      [4] 5 [6] ⟨fun _ => none, fun _ => none⟩ (by decide) (by decide) (by decide)).1

/-! ## Frame lemmas: issues outside the upload list are untouched -/

/-- Phase A neither emits events for nor writes the record of an issue
outside the upload list. -/
theorem phaseA_not_touching (now : Nat) (uploadIds : List Int) (j : Int)
    (hj : j ∉ uploadIds) :
    ∀ (ihl : List IssueHash) (st : Store),
      (∀ e ∈ (phaseA now uploadIds st ihl).2, e.jiraId ≠ some j) ∧
      (phaseA now uploadIds st ihl).1.issues j = st.issues j ∧
      (phaseA now uploadIds st ihl).1.links j = st.links j := by
  intro ihl
  induction ihl with
  | nil =>
    intro st
    refine ⟨?_, rfl, rfl⟩
    intro e he
    simp [phaseA] at he
  | cons ih rest IH =>
    intro st
    by_cases h : ih.issue_id ∈ uploadIds
    · have hne : ih.issue_id ≠ j := fun hh => hj (hh ▸ h)
      have IH' := IH (st.setIssue ih.issue_id
        (upsert_issue_hash (st.issues ih.issue_id) now ih.h_description ih.h_attachment).1)
      refine ⟨?_, ?_, ?_⟩
      · intro e he
        simp only [phaseA, if_pos h, List.mem_cons] at he
        rcases he with rfl | he
        · intro hc
          exact hne (by simpa [Event.jiraId] using hc)
        · exact IH'.1 e he
      · simp only [phaseA, if_pos h]
        rw [IH'.2.1]
        simp only [Store.setIssue]
        rw [if_neg (fun hh : j = ih.issue_id => hne hh.symm)]
      · simp only [phaseA, if_pos h]
        rw [IH'.2.2]
        rfl
    · simp only [phaseA, if_neg h]
      exact IH st

/-- Phase B emits no event for an issue that is not the Jira id of any of
its pairs. -/
theorem phaseB_not_touching (fails : Failures) (upd : List UpdFlags)
    (jl : List JiraIssue) (j : Int) :
    ∀ pairs : List (Int × Int), (∀ pj ∈ pairs, pj.2 ≠ j) →
      ∀ e ∈ (phaseB fails upd jl pairs).1, e.jiraId ≠ some j := by
  intro pairs
  induction pairs with
  | nil => intro _ e he; simp [phaseB] at he
  | cons pj rest IH =>
    intro hp e he
    obtain ⟨p, j0⟩ := pj
    have hj0 : j0 ≠ j := hp (p, j0) (List.mem_cons_self _ _)
    simp only [phaseB] at he
    rcases hu : upd.find? (fun u => u.id = j0) with _ | u <;> rw [hu] at he <;>
      rcases hjf : jl.find? (fun i => i.id = j0) with _ | jd <;> rw [hjf] at he
    · simp at he
    · simp at he
    · simp at he
    · simp only [List.mem_append] at he
      rcases he with (hd | ha) | hr
      · rcases mem_of_mem_ite hd with hx | hx
        · rcases mem_of_mem_ite hx with h2 | h2 <;> fin_cases h2 <;>
            simp [Event.jiraId, hj0]
        · simp at hx
      · rcases mem_of_mem_ite ha with hx | hx
        · rcases mem_of_mem_ite hx with h2 | h2 <;> fin_cases h2 <;>
            simp [Event.jiraId, hj0]
        · simp at hx
      · exact IH (fun q hq => hp q (List.mem_cons_of_mem _ hq)) e hr

/-- Phase C neither emits events for nor writes the records of an issue not
in its id list. -/
theorem phaseC_not_touching (fails : Failures) (jl : List JiraIssue)
    (newTaskId : Int → Int) (j : Int) :
    ∀ (ids : List Int) (st : Store), (∀ i ∈ ids, i ≠ j) →
      (∀ e ∈ (phaseC fails jl newTaskId st ids).2.1, e.jiraId ≠ some j) ∧
      (phaseC fails jl newTaskId st ids).1.issues j = st.issues j ∧
      (phaseC fails jl newTaskId st ids).1.links j = st.links j := by
  intro ids
  induction ids with
  | nil =>
    intro st _
    exact ⟨fun e he => by simp [phaseC] at he, rfl, rfl⟩
  | cons i rest IH =>
    intro st hp
    have hi : i ≠ j := hp i (List.mem_cons_self _ _)
    have hrest : ∀ x ∈ rest, x ≠ j := fun x hx => hp x (List.mem_cons_of_mem _ hx)
    rcases hjf : jl.find? (fun x => x.id = i) with _ | jd
    · have heq : phaseC fails jl newTaskId st (i :: rest) = (st, [], true) := by
        simp only [phaseC, hjf]
      rw [heq]
      exact ⟨fun e he => by simp at he, rfl, rfl⟩
    · by_cases hf : fails.addTaskFails i = true
      · have heq : phaseC fails jl newTaskId st (i :: rest) =
            (st, [Event.addTask i, Event.alert], false) := by
          simp only [phaseC, hjf, if_pos hf]
        rw [heq]
        refine ⟨?_, rfl, rfl⟩
        intro e he
        fin_cases he <;> simp [Event.jiraId, hi]
      · have IH' := IH (st.setLink i (newTaskId i)) hrest
        refine ⟨?_, ?_, ?_⟩ <;> simp only [phaseC, hjf, if_neg hf]
        · intro e he
          simp only [List.cons_append, List.mem_cons, List.mem_append] at he
          rcases he with rfl | rfl | hm | hr
          · simp [Event.jiraId, hi]
          · simp [Event.jiraId, hi]
          · rcases mem_of_mem_ite hm with hx | hx
            · rcases mem_of_mem_ite hx with h2 | h2 <;> fin_cases h2 <;>
                simp [Event.jiraId, hi]
            · simp at hx
          · exact IH'.1 e hr
        · rw [IH'.2.1]
          rfl
        · rw [IH'.2.2]
          simp only [Store.setLink]
          rw [if_neg (fun hh : j = i => hi hh.symm)]

/-- The whole upload phase neither emits events for nor writes the records
of an issue outside the upload list. -/
theorem upload_not_touching (fails : Failures) (now : Nat) (newTaskId : Int → Int)
    (st : Store) (ihl : List IssueHash) (upd : List UpdFlags) (jl : List JiraIssue)
    (uploadIds : List Int) (j : Int) (hj : j ∉ uploadIds) :
    (∀ e ∈ (upload_issues_to_planfix fails now newTaskId st ihl upd jl uploadIds).events,
      e.jiraId ≠ some j) ∧
    (upload_issues_to_planfix fails now newTaskId st ihl upd jl uploadIds).store.issues j =
      st.issues j ∧
    (upload_issues_to_planfix fails now newTaskId st ihl upd jl uploadIds).store.links j =
      st.links j := by
  by_cases h : uploadIds = []
  · refine ⟨?_, ?_, ?_⟩ <;> simp [upload_issues_to_planfix, h]
  · have hA := phaseA_not_touching now uploadIds j hj ihl st
    have hBpairs : ∀ pj ∈ uploadIds.filterMap
        (fun j' => ((phaseA now uploadIds st ihl).1.links j').map (fun p => (p, j'))),
        (pj : Int × Int).2 ≠ j := by
      intro pj hpj
      obtain ⟨j', hj', hmap⟩ := List.mem_filterMap.1 hpj
      obtain ⟨p, _hp, hfp⟩ := Option.map_eq_some'.1 hmap
      rw [← hfp]
      exact fun hh => hj (hh ▸ hj')
    have hCids : ∀ i ∈ uploadIds.filter
        (fun j' => ((phaseA now uploadIds st ihl).1.links j').isNone), i ≠ j := by
      intro i hi
      exact fun hh => hj (hh ▸ (List.mem_filter.1 hi).1)
    have hB := phaseB_not_touching fails upd jl j _ hBpairs
    have hC := phaseC_not_touching fails jl newTaskId j _ (phaseA now uploadIds st ihl).1 hCids
    dsimp only [upload_issues_to_planfix]
    rw [if_neg h]
    split
    · refine ⟨?_, hA.2.1, hA.2.2⟩
      intro e he
      rcases List.mem_append.1 he with h1 | h2
      · exact hA.1 e h1
      · exact hB e h2
    · refine ⟨?_, ?_, ?_⟩
      · intro e he
        rcases List.mem_append.1 he with h1 | h2
        · rcases List.mem_append.1 h1 with h3 | h4
          · exact hA.1 e h3
          · exact hB e h4
        · exact hC.1 e h2
      · rw [hC.2.1, hA.2.1]
      · rw [hC.2.2, hA.2.2]

/-- An id appended to the upload list by `in_redis_issues` always comes from
an iteration whose comparison found a difference. -/
theorem in_redis_appended_isSome (st : Store) (ihl : List IssueHash) :
    ∀ (ids : List Int) (i : Int), i ∈ (in_redis_issues st ihl ids).2 →
      (inRedisStep st ihl i).isSome := by
  intro ids
  induction ids with
  | nil => intro i hi; simp [in_redis_issues] at hi
  | cons x rest IH =>
    intro i hi
    simp only [in_redis_issues] at hi
    split at hi
    · rename_i f hs
      rcases List.mem_cons.1 hi with rfl | hi
      · rw [hs]; rfl
      · exact IH i hi
    · exact IH i hi

/-! ## Claim C9 -/

/-- Claim C9: an issue already known to the store whose current description
fingerprint and attachment fingerprint both equal the stored values is
skipped entirely by the pass — no event of the pass concerns it (no
destination mutation, no store upsert) and its store records are
unchanged. -/
theorem c9_unchanged_issue_skipped
    (fails : Failures) (now : Nat) (newTaskId : Int → Int)
    (st : Store) (ihl : List IssueHash) (jl : List JiraIssue)
    (jiraIds redisIds : List Int) (j : Int) (rc : IssueRec) (ih : IssueHash) (d : String)
    (hredis : j ∈ redisIds)
    (hrec : st.issues j = some rc)
    (hfind : ihl.find? (fun i => i.issue_id = j) = some ih)
    (hdesc : rc.h_description = some d)
    (heqd : hashes_equal (some d) (some ih.h_description) = true)
    (heqa : equal_attachment rc.h_attachment ih.h_attachment = true) :
    (∀ e ∈ (jobPass fails now newTaskId st ihl jl jiraIds redisIds).events,
      e.jiraId ≠ some j) ∧
    (jobPass fails now newTaskId st ihl jl jiraIds redisIds).store.issues j = st.issues j ∧
    (jobPass fails now newTaskId st ihl jl jiraIds redisIds).store.links j = st.links j := by
  have hstep : inRedisStep st ihl j = none := by
    simp only [inRedisStep, hrec, hfind, hdesc, heqd, heqa]
    simp
  have hnot0 : j ∉ jiraIds.filter (fun x => x ∉ redisIds) := by
    intro hmem
    have := (List.mem_filter.1 hmem).2
    simp at this
    exact this hredis
  have hnot2 : j ∉ (in_redis_issues st ihl (jiraIds.filter (fun x => x ∈ redisIds))).2 := by
    intro hmem
    have hsome := in_redis_appended_isSome st ihl _ j hmem
    rw [hstep] at hsome
    simp at hsome
  have hj : j ∉ jiraIds.filter (fun x => x ∉ redisIds) ++
      (in_redis_issues st ihl (jiraIds.filter (fun x => x ∈ redisIds))).2 := by
    intro hmem
    rcases List.mem_append.1 hmem with hm | hm
    · exact hnot0 hm
    · exact hnot2 hm
  exact upload_not_touching fails now newTaskId st ihl _ jl _ j hj

/-- Witness for C9: a concrete linked issue (id 1, task 10) whose stored
fingerprints match the current ones; the pass makes no call for it and its
records are unchanged. -/
theorem c9_witness :
    ((1 : Int) ∈ ([1] : List Int) ∧
      (⟨fun k => if k = 1 then some ⟨some 0, some "d", none, some 0⟩ else none,
        fun k => if k = 1 then some 10 else none⟩ : Store).issues 1 =
        some ⟨some 0, some "d", none, some 0⟩ ∧
      ([⟨1, "d", none⟩] : List IssueHash).find? (fun i => i.issue_id = 1) =
        some ⟨1, "d", none⟩ ∧
      hashes_equal (some "d") (some "d") = true ∧
      equal_attachment none none = true) ∧
    (∀ e ∈ (jobPass ⟨fun _ => false, fun _ => false, fun _ => false⟩ 7 (fun k => k + 100)
        ⟨fun k => if k = 1 then some ⟨some 0, some "d", none, some 0⟩ else none,
         fun k => if k = 1 then some 10 else none⟩
        [⟨1, "d", none⟩] [⟨1, []⟩] [1] [1]).events, e.jiraId ≠ some 1) :=
  ⟨⟨by decide, by decide, by decide, by decide, by decide⟩,
    (c9_unchanged_issue_skipped ⟨fun _ => false, fun _ => false, fun _ => false⟩ 7
      (fun k => k + 100)
      ⟨fun k => if k = 1 then some ⟨some 0, some "d", none, some 0⟩ else none,
       fun k => if k = 1 then some 10 else none⟩
      [⟨1, "d", none⟩] [⟨1, []⟩] [1] [1] 1 ⟨some 0, some "d", none, some 0⟩ ⟨1, "d", none⟩ "d"
      (by decide) (by decide) (by decide) (by decide) (by decide) (by decide)).1⟩

/-! ## Comment pagination — src/jira/methods.py lines 202-247 -/

/-- One page of the Jira comment listing: the `comments` array of the
response (`data.get("comments") or []`) and its `total` field.  The comment
rows themselves are kept abstract (`α`); `fetch s` is the page the server
returns for `startAt = s`. -/
structure CommentPage (α : Type) where
  comments : List α
  total : Nat

/-- The `while True` pagination loop of `get_issue_comments`, with explicit
fuel for the unbounded loop (`none` = the loop did not finish within the
fuel).  Mirrors the source exactly: an empty `comments` page returns `[]`
immediately (discarding `rows`); otherwise rows are appended, `start_at`
advances by the page length, and the loop breaks once `start_at ≥ total`,
after which the rows are sorted by the `_created_dt` key (modelled by the
comparison `le`). -/
def commentsLoop {α : Type} (fetch : Nat → CommentPage α) (le : α → α → Bool) :
    Nat → Nat → List α → Option (List α)
  | 0, _, _ => none
  | fuel + 1, start_at, rows =>
    let page := fetch start_at
    if page.comments.isEmpty then some []
    else
      let rows2 := rows ++ page.comments
      let start2 := start_at + page.comments.length
      if start2 ≥ page.total || page.comments.isEmpty then some (rows2.mergeSort le)
      else commentsLoop fetch le fuel start2 rows2

/-- `get_issue_comments` (src/jira/methods.py lines 202-247): run the
pagination loop from `start_at = 0` with no accumulated rows. -/
def get_issue_comments {α : Type} (fetch : Nat → CommentPage α) (le : α → α → Bool)
    (fuel : Nat) : Option (List α) :=
  commentsLoop fetch le fuel 0 []

/-! ## Claim C6 -/

/-- Claim C6: when the first page of the comment listing is empty, the
fetch returns no comments at all — for every server behaviour on later
pages and every reported total — because the loop hits
`if not comments: return []` on its first iteration; pagination does not
continue until `total` comments have been seen. -/
theorem c6_empty_first_page_returns_nothing {α : Type}
    (fetch : Nat → CommentPage α) (le : α → α → Bool) (fuel : Nat)
    (hfuel : 1 ≤ fuel) (hempty : (fetch 0).comments = []) :
    get_issue_comments fetch le fuel = some [] := by
  obtain ⟨f, rfl⟩ : ∃ f, fuel = f + 1 := ⟨fuel - 1, by omega⟩
  simp [get_issue_comments, commentsLoop, hempty]

/-- Witness for C6: a server whose first page is empty but which has five
comments in total and serves nonempty later pages; the fetch still returns
no comments. -/
theorem c6_witness :
    (1 ≤ 3 ∧
      ((fun s => if s = 0 then ⟨[], 5⟩ else ⟨[1, 2], 5⟩ : Nat → CommentPage Nat) 0).comments =
        [] ∧
      ((fun s => if s = 0 then ⟨[], 5⟩ else ⟨[1, 2], 5⟩ : Nat → CommentPage Nat) 0).total = 5 ∧
      ((fun s => if s = 0 then ⟨[], 5⟩ else ⟨[1, 2], 5⟩ : Nat → CommentPage Nat) 1).comments ≠
        []) ∧
    get_issue_comments (fun s => if s = 0 then ⟨[], 5⟩ else ⟨[1, 2], 5⟩)
      (fun a b : Nat => a ≤ b) 3 = some [] :=
  ⟨⟨by decide, by decide, by decide, by decide⟩,
    c6_empty_first_page_returns_nothing (fun s => if s = 0 then ⟨[], 5⟩ else ⟨[1, 2], 5⟩)
      (fun a b : Nat => a ≤ b) 3 (by decide) (by decide)⟩

/-! ## Canonicalizer — src/utils/hash.py lines 15-32

Python strings are modelled here as their sequences of Unicode code points
(`List Nat`).  Code points used below: 9 = tab, 10 = newline, 13 = carriage
return, 32 = space, 38 = ampersand, 60 = less-than, 62 = greater-than. -/

/-- Inside a candidate tag (after `<` and at least one body character has
been read): consume up to and including the first `>`; `none` if no `>`
follows. -/
def tagEnd : List Nat → Option (List Nat)
  | [] => none
  | c :: r => if c = 62 then some r else tagEnd r

/-- Match the regex body `[^>]+>` at the start of the list (what must follow
a `<` for `re.sub(r"<[^>]+>", "", s)` to erase a tag): at least one
non-`>` character, then everything up to and including the first `>`. -/
def tagMatch : List Nat → Option (List Nat)
  | [] => none
  | c :: r => if c = 62 then none else tagEnd r

theorem tagEnd_length : ∀ {l l' : List Nat}, tagEnd l = some l' → l'.length < l.length := by
  intro l
  induction l with
  | nil => intro l' h; simp [tagEnd] at h
  | cons c r IH =>
    intro l' h
    simp only [tagEnd] at h
    split at h
    · cases h
      simp
    · exact Nat.lt_trans (IH h) (by simp)

theorem tagMatch_length {l l' : List Nat} (h : tagMatch l = some l') :
    l'.length < l.length := by
  cases l with
  | nil => simp [tagMatch] at h
  | cons c r =>
    simp only [tagMatch] at h
    split at h
    · cases h
    · exact Nat.lt_trans (tagEnd_length h) (by simp)

/-- `re.sub(r"<[^>]+>", "", s)` (src/utils/hash.py line 22): scan left to
right; at each `<` erase the shortest `<[^>]+>` match (the regex body cannot
cross a `>`), otherwise keep the character. -/
def stripTags : List Nat → List Nat
  | [] => []
  | c :: rest =>
    if c = 60 then
      match h : tagMatch rest with
      | some rest2 => stripTags rest2
      | none => c :: stripTags rest
    else c :: stripTags rest
termination_by l => l.length
decreasing_by
  · exact Nat.lt_trans (tagMatch_length h) (Nat.lt_succ_self _)
  · exact Nat.lt_succ_self _
  · exact Nat.lt_succ_self _

/-- `html.unescape` (src/utils/hash.py line 24), modelled for the named
character references `&lt;` `&gt;` `&amp;` `&quot;` that the repository's
content paths exercise; Python's remaining HTML5 references (numeric forms,
semicolon-less forms, the long named table) behave the same way: a
replacement is emitted and never rescanned.  On strings without `&` the
function is the identity, exactly as in Python. -/
def entityMatch (l : List Nat) : Option (Nat × List Nat) :=
  if l.take 3 = [108, 116, 59] then some (60, l.drop 3)        -- lt;  → <
  else if l.take 3 = [103, 116, 59] then some (62, l.drop 3)   -- gt;  → >
  else if l.take 4 = [97, 109, 112, 59] then some (38, l.drop 4)   -- amp; → &
  else if l.take 5 = [113, 117, 111, 116, 59] then some (34, l.drop 5)  -- quot; → "
  else none

theorem entityMatch_length {l : List Nat} {d : Nat} {l' : List Nat}
    (h : entityMatch l = some (d, l')) : l'.length < l.length := by
  have hdrop : ∀ k, 0 < k → l.take k ≠ [] → (l.drop k).length < l.length := by
    intro k hk hne
    have hlen : 0 < l.length := by
      cases l with
      | nil => simp at hne
      | cons a r => simp
    simp only [List.length_drop]
    omega
  simp only [entityMatch] at h
  split at h
  · cases h
    exact hdrop 3 (by omega) (by rename_i hq; rw [hq]; simp)
  · split at h
    · cases h
      exact hdrop 3 (by omega) (by rename_i hq; rw [hq]; simp)
    · split at h
      · cases h
        exact hdrop 4 (by omega) (by rename_i hq; rw [hq]; simp)
      · split at h
        · cases h
          exact hdrop 5 (by omega) (by rename_i hq; rw [hq]; simp)
        · cases h

/-- The scan of `html.unescape`: at each `&` try to match a character
reference; on a match emit the replacement (never rescanned) and continue
after it. -/
def unescape : List Nat → List Nat
  | [] => []
  | c :: rest =>
    if c = 38 then
      match h : entityMatch rest with
      | some (d, rest2) => d :: unescape rest2
      | none => c :: unescape rest
    else c :: unescape rest
termination_by l => l.length
decreasing_by
  · exact Nat.lt_trans (entityMatch_length h) (Nat.lt_succ_self _)
  · exact Nat.lt_succ_self _
  · exact Nat.lt_succ_self _

/-- `s.replace("\r\n", "\n")` (src/utils/hash.py line 26): leftmost,
non-overlapping replacement. -/
def replCRLF : List Nat → List Nat
  | [] => []
  | [c] => [c]
  | c1 :: c2 :: rest =>
    if c1 = 13 ∧ c2 = 10 then 10 :: replCRLF rest
    else c1 :: replCRLF (c2 :: rest)

/-- `.replace("\r", "\n")` (src/utils/hash.py line 26). -/
def replCR (l : List Nat) : List Nat :=
  l.map (fun c => if c = 13 then 10 else c)

/-- `unicodedata.normalize("NFC", s)` (src/utils/hash.py line 27).
Modelled as the identity: NFC is the identity on every code point below
U+00C0 (in particular on all ASCII content this development evaluates) and
is idempotent in general. -/
def nfcNormalize (l : List Nat) : List Nat := l

/-- The zero-width class of `ZW_RE` (src/utils/hash.py line 16):
U+200B–U+200D and U+FEFF. -/
def isZeroWidth (n : Nat) : Bool :=
  (0x200B ≤ n && n ≤ 0x200D) || n = 0xFEFF

/-- `ZW_RE.sub("", s)` (src/utils/hash.py line 28). -/
def removeZeroWidth (l : List Nat) : List Nat :=
  l.filter (fun c => !isZeroWidth c)

/-- The class `[ \t]` of `SPACE_RE` (src/utils/hash.py line 15). -/
def isSpaceTab (n : Nat) : Bool := n = 32 || n = 9

/-- `SPACE_RE.sub(" ", s)` (src/utils/hash.py line 29): every maximal run
of spaces/tabs becomes one space. -/
def collapseSpaces : List Nat → List Nat
  | [] => []
  | c :: rest =>
    if isSpaceTab c then 32 :: collapseSpaces (rest.dropWhile isSpaceTab)
    else c :: collapseSpaces rest
termination_by l => l.length
decreasing_by
  · exact Nat.lt_succ_of_le (List.dropWhile_sublist _).length_le
  · exact Nat.lt_succ_self _

/-- The whitespace class of Python's `str.strip()` (the code points for
which `str.isspace` holds). -/
def isPyWhitespace (n : Nat) : Bool :=
  (9 ≤ n && n ≤ 13) || (28 ≤ n && n ≤ 31) || n = 32 || n = 133 || n = 160 ||
  n = 0x1680 || (0x2000 ≤ n && n ≤ 0x200A) || n = 0x2028 || n = 0x2029 ||
  n = 0x202F || n = 0x205F || n = 0x3000

/-- `s.strip()` (src/utils/hash.py line 30): drop leading whitespace, then
trailing whitespace (`List.rdropWhile p l` is `reverse (dropWhile p
(reverse l))`). -/
def pyStrip (l : List Nat) : List Nat :=
  (l.dropWhile isPyWhitespace).rdropWhile isPyWhitespace

/-- One code point of `s.casefold()` (src/utils/hash.py line 31), modelled
as ASCII lowercasing (identity elsewhere); exact on the ASCII content this
development evaluates. -/
def foldChar (n : Nat) : Nat :=
  if 65 ≤ n ∧ n ≤ 90 then n + 32 else n

/-- `s.casefold()` (src/utils/hash.py line 31). -/
def caseFold (l : List Nat) : List Nat := l.map foldChar

/-- `canon_text` (src/utils/hash.py lines 18-32) with its default
`strip_html = True`; `none` models `s is None`. -/
def canon_text (s : Option (List Nat)) : List Nat :=
  caseFold (pyStrip (collapseSpaces (removeZeroWidth (nfcNormalize
    (replCR (replCRLF (unescape (stripTags (s.getD [])))))))))

/-! ## Claim C5 -/

/-- Claim C5 counterexample: canonicalization is not idempotent.  On the
input `"&lt;x&gt;"` (code points 38 108 116 59 120 38 103 116 59) the first
pass decodes the entities to `"<x>"` (60 120 62); the second pass then
strips `<x>` as a markup tag, yielding the empty string — so
`canonicalize (canonicalize x) ≠ canonicalize x`. -/
theorem c5_counterexample :
    canon_text (some [38, 108, 116, 59, 120, 38, 103, 116, 59]) = [60, 120, 62] ∧
    canon_text (some (canon_text (some [38, 108, 116, 59, 120, 38, 103, 116, 59]))) = [] ∧
    ([] : List Nat) ≠ [60, 120, 62] := by
  have h1 : canon_text (some [38, 108, 116, 59, 120, 38, 103, 116, 59]) = [60, 120, 62] := by
    simp [canon_text, stripTags, unescape, entityMatch, replCRLF, replCR, nfcNormalize,
      removeZeroWidth, isZeroWidth, collapseSpaces, isSpaceTab, pyStrip, List.rdropWhile,
      isPyWhitespace, caseFold, foldChar, tagMatch, tagEnd, List.dropWhile]
  refine ⟨h1, ?_, by decide⟩
  rw [h1]
  simp [canon_text, stripTags, unescape, entityMatch, replCRLF, replCR, nfcNormalize,
    removeZeroWidth, isZeroWidth, collapseSpaces, isSpaceTab, pyStrip, List.rdropWhile,
    isPyWhitespace, caseFold, foldChar, tagMatch, tagEnd, List.dropWhile]

/-! ### Stage fixpoint lemmas: each canonicalization stage leaves suitable
inputs unchanged -/

theorem map_self_of_fixed {α : Type} (f : α → α) :
    ∀ l : List α, (∀ c ∈ l, f c = c) → l.map f = l := by
  intro l
  induction l with
  | nil => intro _; rfl
  | cons c rest IH =>
    intro h
    simp only [List.map_cons, h c (List.mem_cons_self _ _),
      IH (fun d hd => h d (List.mem_cons_of_mem _ hd))]

/-- Tag stripping fixes strings without `<`. -/
theorem stripTags_eq_self : ∀ l : List Nat, (∀ c ∈ l, c ≠ 60) → stripTags l = l := by
  intro l
  induction l with
  | nil => intro _; simp [stripTags]
  | cons c rest IH =>
    intro h
    have hc : c ≠ 60 := h c (List.mem_cons_self _ _)
    simp only [stripTags, if_neg hc]
    rw [IH (fun d hd => h d (List.mem_cons_of_mem _ hd))]

/-- Entity decoding fixes strings without `&`. -/
theorem unescape_eq_self : ∀ l : List Nat, (∀ c ∈ l, c ≠ 38) → unescape l = l := by
  intro l
  induction l with
  | nil => intro _; simp [unescape]
  | cons c rest IH =>
    intro h
    have hc : c ≠ 38 := h c (List.mem_cons_self _ _)
    simp only [unescape, if_neg hc]
    rw [IH (fun d hd => h d (List.mem_cons_of_mem _ hd))]

/-- Line-ending normalization fixes strings without carriage returns. -/
theorem replCRLF_eq_self : ∀ l : List Nat, (∀ c ∈ l, c ≠ 13) → replCRLF l = l := by
  intro l
  induction l with
  | nil => intro _; rfl
  | cons c1 rest IH =>
    intro h
    cases rest with
    | nil => rfl
    | cons c2 rest2 =>
      have hc1 : c1 ≠ 13 := h c1 (List.mem_cons_self _ _)
      simp only [replCRLF, if_neg (fun hx : c1 = 13 ∧ c2 = 10 => hc1 hx.1)]
      rw [IH (fun d hd => h d (List.mem_cons_of_mem _ hd))]

theorem replCR_eq_self (l : List Nat) (h : ∀ c ∈ l, c ≠ 13) : replCR l = l :=
  map_self_of_fixed _ l (fun c hc => if_neg (h c hc))

theorem removeZeroWidth_eq_self (l : List Nat) (h : ∀ c ∈ l, isZeroWidth c = false) :
    removeZeroWidth l = l :=
  List.filter_eq_self.mpr (fun c hc => by simp [h c hc])

/-- The head of a `dropWhile` result never satisfies the predicate. -/
theorem dropWhile_head?_not {α : Type} {p : α → Bool} :
    ∀ {l : List α} {c : α}, (l.dropWhile p).head? = some c → p c = false := by
  intro l
  induction l with
  | nil => intro c h; simp at h
  | cons a rest IH =>
    intro c h
    rw [List.dropWhile_cons] at h
    split at h
    · exact IH h
    · simp only [List.head?_cons, Option.some.injEq] at h
      subst h
      rename_i hp
      simpa using hp

/-- Space collapsing fixes tab-free strings with no two adjacent spaces. -/
theorem collapseSpaces_eq_self : ∀ l : List Nat, (∀ c ∈ l, c ≠ 9) →
    List.Chain' (fun a b => ¬(a = 32 ∧ b = 32)) l → collapseSpaces l = l := by
  intro l
  induction l with
  | nil => intro _ _; simp [collapseSpaces]
  | cons c rest IH =>
    intro h9 hch
    by_cases hsp : isSpaceTab c = true
    · have hc32 : c = 32 := by
        have hc9 := h9 c (List.mem_cons_self _ _)
        simp only [isSpaceTab, Bool.or_eq_true, decide_eq_true_eq] at hsp
        rcases hsp with hx | hx
        · exact hx
        · exact absurd hx hc9
      have hdrop : rest.dropWhile isSpaceTab = rest := by
        cases rest with
        | nil => rfl
        | cons d rest2 =>
          have hd9 : d ≠ 9 := h9 d (List.mem_cons_of_mem _ (List.mem_cons_self _ _))
          have hd32 : d ≠ 32 := by
            have hrel := (List.chain'_cons.1 hch).1
            intro hdx
            exact hrel ⟨hc32, hdx⟩
          rw [List.dropWhile_cons, if_neg]
          simp [isSpaceTab, hd9, hd32]
      simp only [collapseSpaces, if_pos hsp, hdrop]
      rw [hc32, IH (fun d hd => h9 d (List.mem_cons_of_mem _ hd)) hch.tail]
    · simp only [collapseSpaces, if_neg hsp]
      rw [IH (fun d hd => h9 d (List.mem_cons_of_mem _ hd)) hch.tail]

/-- Stripping fixes strings whose two ends are not whitespace. -/
theorem pyStrip_eq_self {l : List Nat}
    (hh : ∀ c, l.head? = some c → isPyWhitespace c = false)
    (hl : ∀ c, l.getLast? = some c → isPyWhitespace c = false) :
    pyStrip l = l := by
  have h1 : l.dropWhile isPyWhitespace = l := by
    cases l with
    | nil => rfl
    | cons c rest =>
      rw [List.dropWhile_cons, if_neg]
      simp [hh c rfl]
  rw [pyStrip, h1]
  rw [List.rdropWhile_eq_self_iff]
  intro hne
  have := hl (l.getLast hne) (List.getLast?_eq_getLast l hne)
  simp [this]

theorem foldChar_eq_outside {d b : Nat} (h : foldChar d = b) :
    (97 ≤ b ∧ b ≤ 122) ∨ d = b := by
  unfold foldChar at h
  split at h
  · left; omega
  · right; exact h

theorem foldChar_idem (d : Nat) : foldChar (foldChar d) = foldChar d := by
  by_cases h : 65 ≤ d ∧ d ≤ 90
  · have h1 : foldChar d = d + 32 := by simp [foldChar, h]
    rw [h1]
    unfold foldChar
    rw [if_neg (by omega)]
  · have h1 : foldChar d = d := by simp [foldChar, h]
    rw [h1, h1]

theorem caseFold_mem {l : List Nat} {c : Nat} (h : c ∈ caseFold l) :
    (97 ≤ c ∧ c ≤ 122) ∨ c ∈ l := by
  simp only [caseFold, List.mem_map] at h
  obtain ⟨d, hd, hfd⟩ := h
  rcases foldChar_eq_outside hfd with hr | rfl
  · exact Or.inl hr
  · exact Or.inr hd

theorem replCR_mem {l : List Nat} {c : Nat} (h : c ∈ replCR l) : c ≠ 13 := by
  simp only [replCR, List.mem_map] at h
  obtain ⟨d, _, hd⟩ := h
  by_cases hd13 : d = 13 <;> simp [hd13] at hd <;> omega

/-- The strip step produces an infix of its input. -/
theorem pyStrip_within (l : List Nat) : pyStrip l <:+: l :=
  (List.rdropWhile_prefix _ _).isInfix.trans (List.dropWhile_suffix _).isInfix

theorem pyStrip_head?_not {l : List Nat} {c : Nat}
    (h : (pyStrip l).head? = some c) : isPyWhitespace c = false := by
  unfold pyStrip at h
  obtain ⟨t, ht⟩ :=
    List.rdropWhile_prefix (p := isPyWhitespace) (l := l.dropWhile isPyWhitespace)
  cases hr : (l.dropWhile isPyWhitespace).rdropWhile isPyWhitespace with
  | nil => rw [hr] at h; simp at h
  | cons a rest =>
    rw [hr] at h ht
    simp only [List.head?_cons, Option.some.injEq] at h
    have hd : (l.dropWhile isPyWhitespace).head? = some a := by
      rw [← ht]; rfl
    have hnot := dropWhile_head?_not hd
    rwa [h] at hnot

theorem pyStrip_getLast?_not {l : List Nat} {c : Nat}
    (h : (pyStrip l).getLast? = some c) : isPyWhitespace c = false := by
  have hne : pyStrip l ≠ [] := by
    intro hx
    rw [hx] at h
    simp at h
  have hlast := List.rdropWhile_last_not
    (l := l.dropWhile isPyWhitespace) (p := isPyWhitespace) hne
  rw [List.getLast?_eq_getLast _ hne] at h
  simp only [Option.some.injEq] at h
  subst h
  simpa using hlast

/-! ### Invariants of the canonical output -/

/-- Characters of a collapsed string: the inserted space, or an original
non-space-tab character. -/
theorem collapseSpaces_mem : ∀ (l : List Nat), ∀ c ∈ collapseSpaces l,
    c = 32 ∨ (isSpaceTab c = false ∧ c ∈ l) := by
  intro l
  induction l using collapseSpaces.induct with
  | case1 => intro c hc; simp [collapseSpaces] at hc
  | case2 a rest hsp IH =>
    intro c hc
    simp only [collapseSpaces, if_pos hsp, List.mem_cons] at hc
    rcases hc with rfl | hc2
    · exact Or.inl rfl
    · rcases IH c hc2 with h32 | ⟨hns, hmem⟩
      · exact Or.inl h32
      · exact Or.inr ⟨hns, List.mem_cons_of_mem _ ((List.dropWhile_sublist _).subset hmem)⟩
  | case3 a rest hsp IH =>
    intro c hc
    simp only [collapseSpaces, if_neg hsp, List.mem_cons] at hc
    rcases hc with rfl | hc2
    · right
      exact ⟨by simpa using hsp, List.mem_cons_self _ _⟩
    · rcases IH c hc2 with h32 | ⟨hns, hmem⟩
      · exact Or.inl h32
      · exact Or.inr ⟨hns, List.mem_cons_of_mem _ hmem⟩

/-- A collapsed string has no two adjacent spaces; moreover its head is a
space only when the input began with a space or tab. -/
theorem collapseSpaces_chain : ∀ l : List Nat,
    List.Chain' (fun a b => ¬(a = 32 ∧ b = 32)) (collapseSpaces l) ∧
    (∀ c, (collapseSpaces l).head? = some c → c = 32 →
      ∃ d, l.head? = some d ∧ isSpaceTab d = true) := by
  intro l
  induction l using collapseSpaces.induct with
  | case1 =>
    constructor
    · simp [collapseSpaces]
    · intro c hc; simp [collapseSpaces] at hc
  | case2 a rest hsp IH =>
    constructor
    · simp only [collapseSpaces, if_pos hsp]
      rw [List.chain'_cons']
      refine ⟨?_, IH.1⟩
      intro x hx hpair
      obtain ⟨d, hd, hds⟩ := IH.2 x hx hpair.2
      have := dropWhile_head?_not hd
      rw [this] at hds
      cases hds
    · intro c _ _
      exact ⟨a, rfl, hsp⟩
  | case3 a rest hsp IH =>
    have ha32 : a ≠ 32 := by
      intro hx
      exact hsp (by simp [isSpaceTab, hx])
    constructor
    · simp only [collapseSpaces, if_neg hsp]
      rw [List.chain'_cons']
      refine ⟨?_, IH.1⟩
      intro x _ hpair
      exact ha32 hpair.1
    · intro c hc hc32
      simp only [collapseSpaces, if_neg hsp, List.head?_cons, Option.some.injEq] at hc
      exact absurd (hc ▸ hc32 : a = 32) ha32

theorem lower_not_whitespace {c : Nat} (h1 : 97 ≤ c) (h2 : c ≤ 122) :
    isPyWhitespace c = false := by
  simp only [isPyWhitespace]
  simp only [Bool.or_eq_false_iff, Bool.and_eq_false_iff, decide_eq_false_iff_not]
  omega

theorem caseFold_getLast? : ∀ l : List Nat, (caseFold l).getLast? = l.getLast?.map foldChar := by
  intro l
  induction l with
  | nil => rfl
  | cons a t IH =>
    cases t with
    | nil => rfl
    | cons b t2 =>
      simp only [caseFold, List.map_cons] at IH ⊢
      rw [List.getLast?_cons_cons, List.getLast?_cons_cons, IH]

/-- The invariants every canonical output satisfies: character classes,
no adjacent double space, non-whitespace ends, and case-folded content. -/
theorem canon_text_invariants (s : Option (List Nat)) :
    (∀ c ∈ canon_text s,
      (97 ≤ c ∧ c ≤ 122) ∨ c = 32 ∨
        (isSpaceTab c = false ∧ isZeroWidth c = false ∧ c ≠ 13)) ∧
    List.Chain' (fun a b => ¬(a = 32 ∧ b = 32)) (canon_text s) ∧
    (∀ c, (canon_text s).head? = some c → isPyWhitespace c = false) ∧
    (∀ c, (canon_text s).getLast? = some c → isPyWhitespace c = false) ∧
    (∀ c ∈ canon_text s, foldChar c = c) := by
  refine ⟨?_, ?_, ?_, ?_, ?_⟩
  · intro c hc
    rcases caseFold_mem hc with hr | hY
    · exact Or.inl hr
    · have hX := (pyStrip_within _).sublist.subset hY
      rcases collapseSpaces_mem _ c hX with h32 | ⟨hns, hmem⟩
      · exact Or.inr (Or.inl h32)
      · have hfil := List.mem_filter.1 hmem
        have hzw : isZeroWidth c = false := by simpa using hfil.2
        have h13 : c ≠ 13 := replCR_mem (by simpa [nfcNormalize] using hfil.1)
        exact Or.inr (Or.inr ⟨hns, hzw, h13⟩)
  · show List.Chain' _ (caseFold _)
    rw [caseFold, List.chain'_map]
    have hX := (collapseSpaces_chain (removeZeroWidth (nfcNormalize (replCR (replCRLF
      (unescape (stripTags (s.getD [])))))))).1
    have hY := hX.infix (pyStrip_within _)
    refine hY.imp ?_
    intro a b hab ⟨hfa, hfb⟩
    rcases foldChar_eq_outside hfa with h1 | h1
    · omega
    · rcases foldChar_eq_outside hfb with h2 | h2
      · omega
      · exact hab ⟨h1, h2⟩
  · intro c hc
    rcases hY : pyStrip (collapseSpaces (removeZeroWidth (nfcNormalize (replCR (replCRLF
        (unescape (stripTags (s.getD [])))))))) with _ | ⟨a, t⟩
    · rw [show canon_text s = caseFold [] by rw [canon_text, hY]] at hc
      simp [caseFold] at hc
    · rw [show canon_text s = caseFold (a :: t) by rw [canon_text, hY]] at hc
      simp only [caseFold, List.map_cons, List.head?_cons, Option.some.injEq] at hc
      have hna : isPyWhitespace a = false := pyStrip_head?_not (by rw [hY]; rfl)
      rcases foldChar_eq_outside hc with h1 | h1
      · exact lower_not_whitespace h1.1 h1.2
      · rwa [h1] at hna
  · intro c hc
    rw [show canon_text s = caseFold (pyStrip (collapseSpaces (removeZeroWidth (nfcNormalize
        (replCR (replCRLF (unescape (stripTags (s.getD []))))))))) from rfl,
      caseFold_getLast?] at hc
    rcases hL : List.getLast? (pyStrip (collapseSpaces (removeZeroWidth (nfcNormalize
        (replCR (replCRLF (unescape (stripTags (s.getD []))))))))) with _ | a
    · rw [hL] at hc; simp at hc
    · rw [hL] at hc
      simp only [Option.map_some', Option.some.injEq] at hc
      have hna : isPyWhitespace a = false := pyStrip_getLast?_not hL
      rcases foldChar_eq_outside hc with h1 | h1
      · exact lower_not_whitespace h1.1 h1.2
      · rwa [h1] at hna
  · intro c hc
    simp only [show canon_text s = caseFold (pyStrip (collapseSpaces (removeZeroWidth
        (nfcNormalize (replCR (replCRLF (unescape (stripTags (s.getD []))))))))) from rfl,
      caseFold, List.mem_map] at hc
    obtain ⟨d, _, rfl⟩ := hc
    exact foldChar_idem d

/-- Claim C5 amended: canonicalization is idempotent on every input whose
canonical form contains neither `<` (code 60) nor `&` (code 38) — exactly
the two characters through which a second pass can still act (renewed tag
stripping and entity decoding, as the counterexample exhibits); on such
inputs every later stage also fixes the canonical form, so
`canonicalize (canonicalize x) = canonicalize x`. -/
theorem c5_canon_idempotent_when_tag_free (s : Option (List Nat))
    (hlt : 60 ∉ canon_text s) (hamp : 38 ∉ canon_text s) :
    canon_text (some (canon_text s)) = canon_text s := by
  obtain ⟨hmem, hchain, hhead, hlast, hfold⟩ := canon_text_invariants s
  have h13 : ∀ c ∈ canon_text s, c ≠ 13 := by
    intro c hc
    rcases hmem c hc with h | h | h
    · omega
    · omega
    · exact h.2.2
  have h9 : ∀ c ∈ canon_text s, c ≠ 9 := by
    intro c hc
    rcases hmem c hc with h | h | h
    · omega
    · omega
    · intro hx
      rw [hx] at h
      exact absurd h.1 (by simp [isSpaceTab])
  have hzw : ∀ c ∈ canon_text s, isZeroWidth c = false := by
    intro c hc
    rcases hmem c hc with h | h | h
    · simp only [isZeroWidth, Bool.or_eq_false_iff, Bool.and_eq_false_iff,
        decide_eq_false_iff_not]
      omega
    · rw [h]; decide
    · exact h.2.1
  have h60 : ∀ c ∈ canon_text s, c ≠ 60 := fun c hc he => hlt (he ▸ hc)
  have h38 : ∀ c ∈ canon_text s, c ≠ 38 := fun c hc he => hamp (he ▸ hc)
  show caseFold (pyStrip (collapseSpaces (removeZeroWidth (nfcNormalize (replCR (replCRLF
    (unescape (stripTags (canon_text s))))))))) = canon_text s
  rw [stripTags_eq_self _ h60, unescape_eq_self _ h38, replCRLF_eq_self _ h13,
    replCR_eq_self _ h13]
  show caseFold (pyStrip (collapseSpaces (removeZeroWidth (canon_text s)))) = canon_text s
  rw [removeZeroWidth_eq_self _ hzw, collapseSpaces_eq_self _ h9 hchain,
    pyStrip_eq_self hhead hlast]
  exact map_self_of_fixed foldChar _ hfold

/-- Witness for C5 amended at the input `"A  b"` (65 32 32 98), whose
canonical form `"a b"` (97 32 98) contains no `<` or `&`; the second pass
leaves it unchanged. -/
theorem c5_witness :
    (60 ∉ canon_text (some [65, 32, 32, 98]) ∧ 38 ∉ canon_text (some [65, 32, 32, 98])) ∧
    canon_text (some (canon_text (some [65, 32, 32, 98]))) =
      canon_text (some [65, 32, 32, 98]) := by
  have h0 : canon_text (some [65, 32, 32, 98]) = [97, 32, 98] := by
    simp [canon_text, stripTags, unescape, entityMatch, replCRLF, replCR, nfcNormalize,
      removeZeroWidth, isZeroWidth, collapseSpaces, isSpaceTab, pyStrip, List.rdropWhile,
      isPyWhitespace, caseFold, foldChar, tagMatch, tagEnd, List.dropWhile]
  refine ⟨⟨?_, ?_⟩, ?_⟩
  · rw [h0]; decide
  · rw [h0]; decide
  · exact c5_canon_idempotent_when_tag_free (some [65, 32, 32, 98])
      (by rw [h0]; decide) (by rw [h0]; decide)

end JiraPlanfix
